import Mathlib

/-!
Verification of the provider-key routing and resilience subsystem of the
Vaidya-AI backend: maintenance service, Gemini provider adapter, model
router, and the AES-256-GCM based API-key encryption service.

Shallow embedding conventions:
* stateful services take their stored state explicitly and return the new
  state together with the value the Python method returns;
* Python `Optional[str]` becomes `Option String`; Python dicts that the code
  builds with fixed keys become structures with those fields;
* timestamps (`datetime.now().isoformat()`) are passed in as an explicit
  `now : String` parameter;
* byte strings are `List Nat` with every element `< 256`.
-/

namespace VaidyaAI

/-! ## Maintenance service (src/backend/services/maintenance.py) -/

/-- Dict stored (as `str(dict)`) in the `system_flags` row for
`maintenance_mode`, as written by `enter_maintenance` and mutated by
`exit_maintenance`; fields read back with `.get`, hence `Option`. -/
structure FlagValue where
  level : Option String
  reason : Option String
  feature : Option String
  triggered_by : Option String
  triggered_at : Option String
  is_active : Bool
  exited_at : Option String
  exited_by : Option String
deriving DecidableEq, Repr

/-- State of the `maintenance_mode` row in `system_flags`: no row at all,
a row whose `flag_value` string `ast.literal_eval` fails to parse, or a
parsed dict. -/
inductive StoredFlag where
  | absent : StoredFlag
  | malformed : StoredFlag
  | parsed (v : FlagValue) : StoredFlag
deriving DecidableEq, Repr

/-- Dict returned by `MaintenanceService.get_maintenance_status`. -/
structure MaintStatus where
  in_maintenance : Bool
  level : Option String
  reason : Option String
  feature : Option String
  triggered_by : Option String
  triggered_at : Option String
deriving DecidableEq, Repr

/-- Status dict returned when not in maintenance (all informational fields
`None`). -/
def emptyStatus : MaintStatus :=
  ⟨false, none, none, none, none, none⟩

/-- Embedding of `MaintenanceService.get_maintenance_status`
(maintenance.py lines 244-306).  The Python wraps the parse in
`try/except` and returns the not-in-maintenance dict on any failure, so
the embedding is a total function: `absent` (no row), `malformed`
(`ast.literal_eval` raised) and an inactive parsed flag all yield the
empty status. -/
def get_maintenance_status : StoredFlag → MaintStatus
  | .absent => emptyStatus
  | .malformed => emptyStatus
  | .parsed v =>
    if v.is_active then
      ⟨true, v.level, v.reason, v.feature, v.triggered_by, v.triggered_at⟩
    else
      emptyStatus

/-- Embedding of `MaintenanceService.evaluate_maintenance_trigger`
(maintenance.py lines 22-70).  The query only uses each key's `status`
column, so the key list is embedded as the list of status strings;
`failures` is a Python `int`, hence `Int`. -/
def evaluate_maintenance_trigger (statuses : List String) (failures : Int) :
    Option String :=
  if statuses = [] then
    some "soft"
  else
    let active := statuses.countP (fun s => s == "active")
    let degraded := statuses.countP (fun s => s == "degraded")
    if active = 0 ∧ degraded = 0 then
      some "hard"
    else if active = 0 ∧ degraded > 0 then
      some "soft"
    else if failures ≥ 5 then
      some "soft"
    else
      none

/-- Statement of claim C2's case analysis in the claim's own words, for
comparison with the source-derived `evaluate_maintenance_trigger`:
"soft" when no keys at all; "hard" when keys exist but none is active or
degraded; "soft" when none is active but at least one is degraded; "soft"
when at least one is active and `failures >= 5`; `None` otherwise. -/
def evaluate_maintenance_trigger_claim (statuses : List String)
    (failures : Int) : Option String :=
  if statuses = [] then
    some "soft"
  else if statuses.all (fun s => s != "active" && s != "degraded") then
    some "hard"
  else if statuses.all (fun s => s != "active") &&
      statuses.any (fun s => s == "degraded") then
    some "soft"
  else if statuses.any (fun s => s == "active") && decide (failures ≥ 5) then
    some "soft"
  else
    none

/-- Embedding of `MaintenanceService.enter_maintenance` (maintenance.py
lines 72-167).  Returns `Except` because an invalid level raises
`ValueError`; otherwise returns the new stored flag state together with
the dict the method returns.  The insert and update branches write the
same `flag_value`, so they collapse to one transition. -/
def enter_maintenance (st : StoredFlag) (level reason : String)
    (feature triggered_by : Option String) (now : String) :
    Except String (StoredFlag × MaintStatus) :=
  if ¬(level = "soft" ∨ level = "hard") then
    .error ("Invalid maintenance level: " ++ level ++ ". Must be 'soft' or 'hard'")
  else
    let cur := get_maintenance_status st
    if cur.in_maintenance ∧ ¬(cur.level = some "soft" ∧ level = "hard") then
      .ok (st, cur)
    else
      .ok (.parsed ⟨some level, some reason, feature, triggered_by, some now,
            true, none, none⟩,
          ⟨true, some level, some reason, feature, triggered_by, some now⟩)

/-- Dict returned by `MaintenanceService.exit_maintenance` (both the
no-op branch and the exit branch). -/
structure ExitResult where
  in_maintenance : Bool
  message : String
  exited_by : Option String
  exited_at : Option String
deriving DecidableEq, Repr

/-- Python truthiness of an `Optional[str]`: `None` and `""` are falsy. -/
def pyTruthy : Option String → Bool
  | none => false
  | some s => s != ""

/-- Embedding of `MaintenanceService.exit_maintenance` (maintenance.py
lines 169-242).  Returns the new stored flag state, the returned dict,
and whether `notify_admin_override` fired (the Python guard is
`if exited_by:`, i.e. truthiness).  When the status read says the system
is in maintenance but the flag row is gone or unparseable, the Python
skips the update (`if flag_result.data:`) yet still returns the exited
dict, which the catch-all `match` arm mirrors. -/
def exit_maintenance (st : StoredFlag) (exited_by : Option String)
    (now : String) : StoredFlag × ExitResult × Bool :=
  let cur := get_maintenance_status st
  if cur.in_maintenance = false then
    (st, ⟨false, "Not in maintenance mode", none, none⟩, false)
  else
    let st' := match st with
      | .parsed v =>
        StoredFlag.parsed
          { v with is_active := false, exited_at := some now,
                   exited_by := exited_by }
      | s => s
    (st', ⟨false, "Maintenance mode exited", exited_by, some now⟩,
      pyTruthy exited_by)

/-! ## Gemini provider adapter (src/backend/services/providers/gemini.py) -/

/-- One element of a candidate's `content.parts` list; `"text"` is read
with `.get("text", "")`, hence `Option`. -/
structure GeminiPart where
  text : Option String
deriving DecidableEq, Repr

/-- One element of the response's `candidates` list; `content` and
`parts` are read with `.get(..., {})` / `.get(..., [])`, so a candidate
without them is embedded as an empty `parts` list. -/
structure GeminiCandidate where
  parts : List GeminiPart
deriving DecidableEq, Repr

/-- Parsed JSON body of a 2xx Gemini response: `candidates` (default
`[]`) and `usageMetadata.totalTokenCount`, which is `none` when either
`usageMetadata` or `totalTokenCount` is absent (both are read with
`.get`). -/
structure GeminiBody where
  candidates : List GeminiCandidate
  totalTokenCount : Option Nat
deriving DecidableEq, Repr

/-- Dict returned by `GeminiProvider.call_gemini`. -/
structure GeminiResult where
  success : Bool
  content : Option String
  error : Option String
  tokens_used : Nat
deriving DecidableEq, Repr

/-- Outcome of the HTTP POST inside `call_gemini`: a 2xx response with a
parsed JSON body, a non-2xx status with an extracted error message, a
timeout, a transport error, or any other exception. -/
inductive HttpOutcome where
  | ok (body : GeminiBody)
  | httpError (status : Nat) (message : String)
  | timeout
  | netError (message : String)
  | otherError (message : String)
deriving DecidableEq, Repr

/-- Embedding of the 2xx branch of `GeminiProvider.call_gemini`
(gemini.py lines 158-204): no candidates and no parts are failures;
otherwise the first part's text (default `""`) is returned as a success,
with `tokens_used` taken from `totalTokenCount` when non-zero (absent
defaults to 0) and otherwise estimated as
`len(prompt) // 4 + len(generated_text) // 4`. -/
def call_gemini_ok (prompt : String) (body : GeminiBody) : GeminiResult :=
  match body.candidates with
  | [] => ⟨false, none, some "No response generated by Gemini", 0⟩
  | candidate :: _ =>
    match candidate.parts with
    | [] => ⟨false, none, some "No content in Gemini response", 0⟩
    | part :: _ =>
      let generated_text := part.text.getD ""
      let reported := body.totalTokenCount.getD 0
      let tokens_used :=
        if reported = 0 then
          prompt.length / 4 + generated_text.length / 4
        else
          reported
      ⟨true, some generated_text, none, tokens_used⟩

/-- Embedding of `GeminiProvider.call_gemini` (gemini.py lines 90-226)
over the outcome of the HTTP call. -/
def call_gemini (prompt : String) (outcome : HttpOutcome) : GeminiResult :=
  match outcome with
  | .ok body => call_gemini_ok prompt body
  | .httpError status message =>
    ⟨false, none,
      some ("Gemini API error (" ++ toString status ++ "): " ++ message), 0⟩
  | .timeout => ⟨false, none, some "Request timed out", 0⟩
  | .netError message => ⟨false, none, some ("Network error: " ++ message), 0⟩
  | .otherError message =>
    ⟨false, none, some ("Unexpected error: " ++ message), 0⟩

/-! ## Model router (`ModelRouterService.execute_with_fallback`) -/

/-- Key record as handed to the router's fallback loop (only the fields
the loop consults). -/
structure RouterKey where
  id : String
  priority : Int
deriving DecidableEq, Repr

/-- Common adapter result shape (`{success, content?, error?,
tokens_used}`). -/
structure AdapterResult where
  success : Bool
  content : Option String
  error : Option String
  tokens_used : Nat
deriving DecidableEq, Repr

/-- Result contract of `execute_with_fallback` (`RouterAttemptResult`). -/
structure RouterResult where
  success : Bool
  content : Option String
  error : Option String
  tokens_used : Nat
  key_id : Option String
  attempts : Nat
deriving DecidableEq, Repr

/-- Modelled from the spec: the fallback loop of
`ModelRouterService.execute_with_fallback` (spec §4.3); the file
`model_router.py` itself is not in `src/`, only its property tests are.
Walks the key list with a `max_retries` fuel counter and an attempts
counter.  On the first adapter success it returns immediately with that
key's id; when keys or fuel run out it returns a failure whose
`attempts` equals the number of adapter invocations made.  The second
component is the list of attempted key ids, in order. -/
def fallbackGo (call : RouterKey → AdapterResult) :
    List RouterKey → Nat → Nat → RouterResult × List String
  | _, 0, made =>
    (⟨false, none, some "All API keys failed", 0, none, made⟩, [])
  | [], _ + 1, made =>
    (⟨false, none, some "All API keys failed", 0, none, made⟩, [])
  | k :: rest, fuel + 1, made =>
    let r := call k
    if r.success then
      (⟨true, r.content, none, r.tokens_used, some k.id, made + 1⟩, [k.id])
    else
      let next := fallbackGo call rest fuel (made + 1)
      (next.1, k.id :: next.2)

/-- Modelled from the spec: `ModelRouterService.execute_with_fallback`
(spec §4.3) after `get_all_active_keys` returned `keys` (already ordered
by priority descending, spec §4.2); `call` is the provider adapter
dispatch for one decrypted key.  Returns the router result together with
the list of attempted key ids. -/
def execute_with_fallback (keys : List RouterKey)
    (call : RouterKey → AdapterResult) (max_retries : Nat) :
    RouterResult × List String :=
  fallbackGo call keys max_retries 0

/-! ## Base64 (Python `base64.b64encode`/`b64decode` on byte strings) -/

/-- Character code of the standard base64 alphabet at index `x < 64`. -/
def b64enc (x : Nat) : Nat :=
  if x < 26 then 65 + x
  else if x < 52 then 97 + (x - 26)
  else if x < 62 then 48 + (x - 52)
  else if x = 62 then 43
  else 47

/-- Index of a standard base64 alphabet character code (0 on
non-alphabet input). -/
def b64dec (c : Nat) : Nat :=
  if 65 ≤ c ∧ c ≤ 90 then c - 65
  else if 97 ≤ c ∧ c ≤ 122 then c - 97 + 26
  else if 48 ≤ c ∧ c ≤ 57 then c - 48 + 52
  else if c = 43 then 62
  else if c = 47 then 63
  else 0

/-- Base64 encoding of a byte list as a list of character codes, with
`'='` (code 61) padding, as produced by `base64.b64encode`. -/
def b64encode : List Nat → List Nat
  | [] => []
  | [a] => [b64enc (a / 4), b64enc (a % 4 * 16), 61, 61]
  | [a, b] =>
    [b64enc (a / 4), b64enc (a % 4 * 16 + b / 16), b64enc (b % 16 * 4), 61]
  | a :: b :: c :: rest =>
    b64enc (a / 4) :: b64enc (a % 4 * 16 + b / 16) ::
      b64enc (b % 16 * 4 + c / 64) :: b64enc (c % 64) :: b64encode rest

/-- Base64 decoding of a list of character codes back to bytes,
honouring `'='` padding; inverse of `b64encode` on its image.  Outside
the encoder's image it is a best-effort total function (Python's
`b64decode` would raise `binascii.Error` there, which `decrypt_key`'s
catch-all rewraps into its labelled failure; no claim exercises that
path). -/
def b64decode : List Nat → List Nat
  | c1 :: c2 :: c3 :: c4 :: rest =>
    if c3 = 61 then
      [b64dec c1 * 4 + b64dec c2 / 16]
    else if c4 = 61 then
      [b64dec c1 * 4 + b64dec c2 / 16, b64dec c2 % 16 * 16 + b64dec c3 / 4]
    else
      (b64dec c1 * 4 + b64dec c2 / 16) ::
        (b64dec c2 % 16 * 16 + b64dec c3 / 4) ::
        (b64dec c3 % 4 * 64 + b64dec c4) :: b64decode rest
  | _ => []

/-! ## AES-256 block cipher (the `AESGCM` primitive of the
`cryptography` library used by encryption.py, FIPS-197) -/

/-- Multiplication by `x` in GF(2^8) modulo `x^8 + x^4 + x^3 + x + 1`. -/
def xtime (b : Nat) : Nat :=
  if b < 128 then 2 * b else (2 * b) % 256 ^^^ 27

/-- Iterative GF(2^8) product accumulator (Russian-peasant loop). -/
def gfmulAux : Nat → Nat → Nat → Nat → Nat
  | 0, _, _, acc => acc
  | n + 1, a, b, acc =>
    gfmulAux n (xtime a) (b / 2) (if b % 2 = 1 then acc ^^^ a else acc)

/-- GF(2^8) product of two bytes. -/
def gfmul8 (a b : Nat) : Nat := gfmulAux 8 a b 0

/-- GF(2^8) power. -/
def gfpow8 (a : Nat) : Nat → Nat
  | 0 => 1
  | n + 1 => gfmul8 a (gfpow8 a n)

/-- GF(2^8) multiplicative inverse (0 maps to 0), via `a ^ 254`. -/
def gfinv8 (b : Nat) : Nat := if b = 0 then 0 else gfpow8 b 254

/-- Rotate a byte left by `k` bits. -/
def rotl8 (k x : Nat) : Nat := (x * 2 ^ k) % 256 ^^^ x / 2 ^ (8 - k)

/-- AES S-box, defined algorithmically as the affine transform of the
GF(2^8) inverse (FIPS-197 §5.1.1). -/
def sbox (b : Nat) : Nat :=
  let y := gfinv8 b
  y ^^^ rotl8 1 y ^^^ rotl8 2 y ^^^ rotl8 3 y ^^^ rotl8 4 y ^^^ 99

/-- Apply the S-box to each byte of a key-schedule word. -/
def subWord (w : List Nat) : List Nat := w.map sbox

/-- Rotate a key-schedule word left by one byte. -/
def rotWord : List Nat → List Nat
  | [] => []
  | a :: t => t ++ [a]

/-- Round-constant byte `Rcon[i+1] = x^i` in GF(2^8). -/
def rconByte : Nat → Nat
  | 0 => 1
  | n + 1 => xtime (rconByte n)

/-- Next word of the AES-256 key schedule from the words so far
(FIPS-197 §5.2 with `Nk = 8`). -/
def nextWord (ws : List (List Nat)) : List Nat :=
  let i := ws.length
  let prev := ws.getD (i - 1) []
  let temp :=
    if i % 8 = 0 then
      List.zipWith (fun a b => a ^^^ b) (subWord (rotWord prev))
        [rconByte (i / 8 - 1), 0, 0, 0]
    else if i % 8 = 4 then
      subWord prev
    else
      prev
  List.zipWith (fun a b => a ^^^ b) (ws.getD (i - 8) []) temp

/-- Extend the key schedule by `n` further words. -/
def expandWordsAux : Nat → List (List Nat) → List (List Nat)
  | 0, ws => ws
  | n + 1, ws => expandWordsAux n (ws ++ [nextWord ws])

/-- Initial eight key-schedule words of a 32-byte key. -/
def initWords (key : List Nat) : List (List Nat) :=
  (List.range 8).map (fun i => (key.drop (4 * i)).take 4)

/-- Fifteen 16-byte AES-256 round keys of a 32-byte key. -/
def expandKey (key : List Nat) : List (List Nat) :=
  let ws := expandWordsAux 52 (initWords key)
  (List.range 15).map (fun r => ((ws.drop (4 * r)).take 4).flatten)

/-- SubBytes step. -/
def subBytes (st : List Nat) : List Nat := st.map sbox

/-- ShiftRows step on a column-major 16-byte state. -/
def shiftRows (st : List Nat) : List Nat :=
  (List.range 16).map (fun i => st.getD (4 * ((i / 4 + i % 4) % 4) + i % 4) 0)

/-- One output byte of the MixColumns matrix for row `r` of a column
`(a0, a1, a2, a3)`. -/
def mixColumn (a0 a1 a2 a3 r : Nat) : Nat :=
  match r with
  | 0 => gfmul8 2 a0 ^^^ gfmul8 3 a1 ^^^ a2 ^^^ a3
  | 1 => a0 ^^^ gfmul8 2 a1 ^^^ gfmul8 3 a2 ^^^ a3
  | 2 => a0 ^^^ a1 ^^^ gfmul8 2 a2 ^^^ gfmul8 3 a3
  | _ => gfmul8 3 a0 ^^^ a1 ^^^ a2 ^^^ gfmul8 2 a3

/-- MixColumns step on a column-major 16-byte state. -/
def mixColumns (st : List Nat) : List Nat :=
  (List.range 16).map (fun i =>
    mixColumn (st.getD (4 * (i / 4)) 0) (st.getD (4 * (i / 4) + 1) 0)
      (st.getD (4 * (i / 4) + 2) 0) (st.getD (4 * (i / 4) + 3) 0) (i % 4))

/-- AddRoundKey step; the `% 256` normalisation makes every output a
byte for any input. -/
def addRoundKey (st rk : List Nat) : List Nat :=
  (List.range 16).map (fun i => (st.getD i 0 ^^^ rk.getD i 0) % 256)

/-- AES-256 block encryption of a 16-byte block (FIPS-197 §5.1). -/
def aesEncryptBlock (key block : List Nat) : List Nat :=
  let rks := expandKey key
  let st0 := addRoundKey block (rks.getD 0 [])
  let stMid := ((rks.drop 1).take 13).foldl
    (fun st rk => addRoundKey (mixColumns (shiftRows (subBytes st))) rk) st0
  addRoundKey (shiftRows (subBytes stMid)) (rks.getD 14 [])

/-! ## AES-GCM (NIST SP 800-38D, 12-byte IV, no associated data, 16-byte
tag), as performed by `AESGCM.encrypt`/`AESGCM.decrypt` -/

/-- Big-endian value of a byte list. -/
def bytesToNat (l : List Nat) : Nat :=
  l.foldl (fun acc b => acc * 256 + b) 0

/-- Big-endian byte list of length `n` of a value. -/
def natToBytes : Nat → Nat → List Nat
  | 0, _ => []
  | n + 1, x => natToBytes n (x / 256) ++ [x % 256]

/-- The GHASH reduction constant `R = 0xe1 << 120`. -/
def gcmR : Nat := 225 * 2 ^ 120

/-- Iterative GF(2^128) product in the GCM bit order: the multiplier's
bits are consumed most-significant first and the accumulator shifts
right with reduction by `R`. -/
def gfmul128Aux : Nat → Nat → Nat → Nat → Nat
  | 0, _, _, z => z
  | n + 1, x, v, z =>
    let z' := if x / 2 ^ 127 = 1 then z ^^^ v else z
    let v' := if v % 2 = 1 then v / 2 ^^^ gcmR else v / 2
    gfmul128Aux n (x * 2 % 2 ^ 128) v' z'

/-- GF(2^128) product of two 128-bit blocks. -/
def gfmul128 (x y : Nat) : Nat := gfmul128Aux 128 x y 0

/-- GHASH of a list of 128-bit blocks under hash subkey `h`. -/
def ghash (h : Nat) (blocks : List Nat) : Nat :=
  blocks.foldl (fun y blk => gfmul128 (y ^^^ blk) h) 0

/-- Split a byte list into 128-bit blocks, zero-padding the last. -/
def toBlocks : List Nat → List Nat
  | [] => []
  | a :: t =>
    bytesToNat ((a :: t).take 16 ++
        List.replicate (16 - ((a :: t).take 16).length) 0) ::
      toBlocks (t.drop 15)
termination_by l => l.length
decreasing_by
  simp only [List.length_drop, List.length_cons]
  omega

/-- GCM authentication tag over a ciphertext (no associated data):
`E_K(J0) xor GHASH_H(pad(C) || len64(A)=0 || len64(C))` with
`J0 = IV || 0^31 || 1`. -/
def computeTag (key nonce ct : List Nat) : List Nat :=
  let h := bytesToNat (aesEncryptBlock key (List.replicate 16 0))
  let j0 := nonce ++ [0, 0, 0, 1]
  let s := ghash h (toBlocks ct ++ [8 * ct.length % 2 ^ 64])
  List.zipWith (fun a b => a ^^^ b) (aesEncryptBlock key j0) (natToBytes 16 s)

/-- Concatenated CTR keystream blocks `E_K(IV || ctr)` for `n` blocks
starting at counter `ctr`. -/
def ksBlocks (key nonce : List Nat) : Nat → Nat → List Nat
  | _, 0 => []
  | ctr, n + 1 =>
    aesEncryptBlock key (nonce ++ natToBytes 4 (ctr % 2 ^ 32)) ++
      ksBlocks key nonce (ctr + 1) n

/-- First `n` bytes of the GCM keystream (counter starts at 2, since
`J0` itself carries counter 1). -/
def keystream (key nonce : List Nat) (n : Nat) : List Nat :=
  (ksBlocks key nonce 2 ((n + 15) / 16)).take n

/-- CTR encryption/decryption: xor the data with the keystream. -/
def ctrCrypt (key nonce data : List Nat) : List Nat :=
  List.zipWith (fun a b => a ^^^ b) data (keystream key nonce data.length)

/-- GCM authenticated encryption: ciphertext followed by the 16-byte
tag, as returned by `AESGCM.encrypt(nonce, plaintext, None)`. -/
def gcmEncrypt (key nonce pt : List Nat) : List Nat :=
  let ct := ctrCrypt key nonce pt
  ct ++ computeTag key nonce ct

/-- GCM authenticated decryption, as performed by
`AESGCM.decrypt(nonce, data, None)`: `none` models raising
`InvalidTag`. -/
def gcmDecrypt (key nonce data : List Nat) : Option (List Nat) :=
  if data.length < 16 then
    none
  else
    let ct := data.take (data.length - 16)
    let tag := data.drop (data.length - 16)
    if computeTag key nonce ct = tag then
      some (ctrCrypt key nonce ct)
    else
      none

/-! ## Encryption service (src/backend/services/encryption.py) -/

/-- Embedding of `EncryptionService.encrypt_key` (encryption.py lines
67-109) at the utf-8 byte level: `pt` is the plaintext's utf-8 byte
list and the fresh random `os.urandom(12)` nonce is an explicit
parameter.  The stored blob is `base64(nonce || ciphertext || tag)`. -/
def encrypt_key (key nonce pt : List Nat) : Except String (List Nat) :=
  if pt = [] then
    .error "Cannot encrypt empty plaintext"
  else
    .ok (b64encode (nonce ++ gcmEncrypt key nonce pt))

/-- Embedding of `EncryptionService.decrypt_key` (encryption.py lines
111-161): rejects empty input, base64-decodes, rejects blobs shorter
than 12 bytes (the inner `ValueError` is re-raised by the catch-all as
the "Failed to decrypt" message), splits nonce from ciphertext+tag, and
maps `InvalidTag` to the labelled authentication error. -/
def decrypt_key (key ciphertext : List Nat) : Except String (List Nat) :=
  if ciphertext = [] then
    .error "Cannot decrypt empty ciphertext"
  else
    let encrypted_data := b64decode ciphertext
    if encrypted_data.length < 12 then
      .error "Failed to decrypt API key: Invalid ciphertext: too short"
    else
      let nonce := encrypted_data.take 12
      let rest := encrypted_data.drop 12
      match gcmDecrypt key nonce rest with
      | some pt => .ok pt
      | none =>
        .error ("Failed to decrypt API key: Authentication tag " ++
          "verification failed. The data may have been tampered with " ++
          "or the wrong key was used.")

/-! ## Theorems -/

/-- Bridging lemma: a list has no element equal to `x` exactly when the
count of elements equal to `x` is zero. -/
theorem all_bne_eq_countP_zero (x : String) (l : List String) :
    (l.all fun s => s != x) = decide (l.countP (fun s => s == x) = 0) := by
  induction l with
  | nil => rfl
  | cons a t ih =>
    by_cases h : a = x <;> simp [List.countP_cons, h, ih]

/-- Bridging lemma: a list has an element equal to `x` exactly when the
count of elements equal to `x` is positive. -/
theorem any_beq_eq_countP_pos (x : String) (l : List String) :
    (l.any fun s => s == x) = decide (0 < l.countP (fun s => s == x)) := by
  induction l with
  | nil => rfl
  | cons a t ih =>
    by_cases h : a = x <;> simp [List.countP_cons, h, ih]

/-- Bridging lemma: `List.all` distributes over a pointwise `&&`. -/
theorem all_and_distrib (p q : String → Bool) (l : List String) :
    (l.all fun s => p s && q s) = (l.all p && l.all q) := by
  induction l with
  | nil => rfl
  | cons a t ih =>
    simp only [List.all_cons, ih]
    cases p a <;> cases q a <;> cases t.all p <;> cases t.all q <;> rfl

/-- C2: for every feature key pool and every failures count,
`evaluate_maintenance_trigger` returns exactly "soft" when no keys are
configured, "hard" when keys exist but none is active or degraded, "soft"
when none is active but at least one is degraded, "soft" when at least
one is active and `failures >= 5`, and `None` otherwise. -/
theorem evaluate_maintenance_trigger_matches_claim (statuses : List String)
    (failures : Int) :
    evaluate_maintenance_trigger statuses failures =
      evaluate_maintenance_trigger_claim statuses failures := by
  unfold evaluate_maintenance_trigger evaluate_maintenance_trigger_claim
  by_cases hnil : statuses = []
  · simp [hnil]
  · have hsplit := all_and_distrib (fun s => s != "active")
      (fun s => s != "degraded") statuses
    by_cases hA : statuses.countP (fun s => s == "active") = 0 <;>
      by_cases hD : statuses.countP (fun s => s == "degraded") = 0 <;>
      by_cases hf : failures ≥ 5 <;>
      simp [hnil, hsplit, all_bne_eq_countP_zero, any_beq_eq_countP_pos,
        hA, hD, hf, Nat.pos_of_ne_zero]

/-- C3: `enter_maintenance` never lowers the maintenance level.  While a
maintenance episode is active at level "hard", entering either valid
level returns the current status with the stored flag unchanged (so
entering "soft" leaves the level "hard"); while active at level "soft",
entering "soft" returns the current status unchanged, and entering
"hard" persists level "hard" (upgrade). -/
theorem enter_maintenance_monotonic (v : FlagValue) (level reason : String)
    (feature triggered_by : Option String) (now : String)
    (hactive : v.is_active = true) :
    (v.level = some "hard" → (level = "soft" ∨ level = "hard") →
      enter_maintenance (.parsed v) level reason feature triggered_by now =
        .ok (.parsed v, get_maintenance_status (.parsed v))) ∧
    (v.level = some "soft" → level = "soft" →
      enter_maintenance (.parsed v) level reason feature triggered_by now =
        .ok (.parsed v, get_maintenance_status (.parsed v))) ∧
    (v.level = some "soft" →
      enter_maintenance (.parsed v) "hard" reason feature triggered_by now =
        .ok (.parsed ⟨some "hard", some reason, feature, triggered_by,
              some now, true, none, none⟩,
            ⟨true, some "hard", some reason, feature, triggered_by,
              some now⟩)) := by
  refine ⟨fun hlvl hvalid => ?_, fun hlvl hsoft => ?_, fun hlvl => ?_⟩
  · simp [enter_maintenance, get_maintenance_status, hactive, hlvl, hvalid]
  · simp [enter_maintenance, get_maintenance_status, hactive, hlvl, hsoft]
  · simp [enter_maintenance, get_maintenance_status, hactive, hlvl]

/-- Witness for C3 at a concrete active "hard" episode. -/
theorem enter_maintenance_monotonic_witness :
    enter_maintenance
        (.parsed ⟨some "hard", some "outage", none, none, some "t0", true,
          none, none⟩) "soft" "new reason" none none "t1" =
      .ok (.parsed ⟨some "hard", some "outage", none, none, some "t0", true,
            none, none⟩,
          ⟨true, some "hard", some "outage", none, none, some "t0"⟩) := by
  have h := enter_maintenance_monotonic
    ⟨some "hard", some "outage", none, none, some "t0", true, none, none⟩
    "soft" "new reason" none none "t1" rfl
  exact h.1 rfl (Or.inl rfl)

/-- C8: `get_maintenance_status` is a total (never-raising) read that
fails open: an absent flag row, an unparseable stored flag, and a parsed
flag with `is_active` false all produce the not-in-maintenance status. -/
theorem get_maintenance_status_fail_open :
    get_maintenance_status .absent = emptyStatus ∧
    get_maintenance_status .malformed = emptyStatus ∧
    (∀ v : FlagValue, v.is_active = false →
      get_maintenance_status (.parsed v) = emptyStatus) := by
  refine ⟨rfl, rfl, fun v hv => ?_⟩
  simp [get_maintenance_status, hv]

/-- Witness for C8 at a concrete inactive parsed flag. -/
theorem get_maintenance_status_fail_open_witness :
    get_maintenance_status
        (.parsed ⟨some "soft", some "done", none, none, some "t0", false,
          some "t1", some "admin"⟩) = emptyStatus :=
  get_maintenance_status_fail_open.2.2
    ⟨some "soft", some "done", none, none, some "t0", false, some "t1",
      some "admin"⟩ rfl

/-- C9 (amended): `exit_maintenance` is a no-op returning
`in_maintenance: false` when no episode is active; on an active episode
it deactivates the flag, records `exited_at`/`exited_by`, and fires
`notify_admin_override` exactly when `exited_by` is provided and
non-empty (Python truthiness of the `if exited_by:` guard). -/
theorem exit_maintenance_behavior :
    (∀ (st : StoredFlag) (eb : Option String) (now : String),
      (get_maintenance_status st).in_maintenance = false →
      exit_maintenance st eb now =
        (st, ⟨false, "Not in maintenance mode", none, none⟩, false)) ∧
    (∀ (v : FlagValue) (eb : Option String) (now : String),
      v.is_active = true →
      exit_maintenance (.parsed v) eb now =
        (.parsed { v with
            is_active := false
            exited_at := some now
            exited_by := eb },
         ⟨false, "Maintenance mode exited", eb, some now⟩,
         pyTruthy eb)) ∧
    (∀ eb : Option String,
      pyTruthy eb = true ↔ ∃ s, eb = some s ∧ s ≠ "") := by
  refine ⟨fun st eb now hmaint => ?_, fun v eb now hactive => ?_, fun eb => ?_⟩
  · simp [exit_maintenance, hmaint]
  · simp [exit_maintenance, get_maintenance_status, hactive]
  · cases eb with
    | none => simp [pyTruthy]
    | some s => simp [pyTruthy]

/-- Witness for C9 at a concrete active episode exited by an admin. -/
theorem exit_maintenance_behavior_witness :
    exit_maintenance
        (.parsed ⟨some "soft", some "outage", none, none, some "t0", true,
          none, none⟩) (some "admin-1") "t1" =
      (.parsed ⟨some "soft", some "outage", none, none, some "t0", false,
          some "t1", some "admin-1"⟩,
       ⟨false, "Maintenance mode exited", some "admin-1", some "t1"⟩,
       true) :=
  exit_maintenance_behavior.2.1
    ⟨some "soft", some "outage", none, none, some "t0", true, none, none⟩
    (some "admin-1") "t1" rfl

/-- Counterexample for C9 as stated: with an active episode and
`exited_by = ""` (provided, not `None`), the flag is deactivated and
`exited_by` recorded, but `notify_admin_override` does not fire, because
the Python guard `if exited_by:` tests truthiness rather than presence. -/
theorem exit_maintenance_claim_counterexample :
    (exit_maintenance
        (.parsed ⟨some "soft", some "outage", none, none, some "t0", true,
          none, none⟩) (some "") "t1").2.2 = false ∧
    (some "" : Option String) ≠ none ∧
    (exit_maintenance
        (.parsed ⟨some "soft", some "outage", none, none, some "t0", true,
          none, none⟩) (some "") "t1").1 =
      .parsed ⟨some "soft", some "outage", none, none, some "t0", false,
        some "t1", some ""⟩ := by
  refine ⟨rfl, by simp, rfl⟩

/-- C10: when `exit_maintenance` deactivates an active flag, the fields
`level`, `reason`, `feature`, `triggered_by` and `triggered_at` of the
stored flag value are preserved unchanged; only `is_active` (set to
false), `exited_at` and `exited_by` are modified. -/
theorem exit_maintenance_frame (v : FlagValue) (eb : Option String)
    (now : String) (hactive : v.is_active = true) :
    (exit_maintenance (.parsed v) eb now).1 =
      .parsed ⟨v.level, v.reason, v.feature, v.triggered_by, v.triggered_at,
        false, some now, eb⟩ := by
  simp [exit_maintenance, get_maintenance_status, hactive]

/-- Witness for C10 at a concrete active flag. -/
theorem exit_maintenance_frame_witness :
    (exit_maintenance
        (.parsed ⟨some "hard", some "all keys failed", some "chat",
          some "router", some "t0", true, none, none⟩) none "t1").1 =
      .parsed ⟨some "hard", some "all keys failed", some "chat",
        some "router", some "t0", false, some "t1", none⟩ :=
  exit_maintenance_frame
    ⟨some "hard", some "all keys failed", some "chat", some "router",
      some "t0", true, none, none⟩ none "t1" rfl

/-- Counterexample for C6 as stated: a 2xx response reporting
`totalTokenCount = 0` with prompt "hi" and content "ok" yields a
successful result with non-empty content and `tokens_used = 0` (the code
estimates `len(prompt)//4 + len(content)//4 = 0`), although the claim
says `tokens_used` equals the reported usage when present, gives the
estimate `len(prompt+content)/4` (which here is `4/4 = 1`), and says a
successful non-empty response never reports 0 tokens. -/
theorem call_gemini_tokens_counterexample :
    call_gemini "hi" (.ok ⟨[⟨[⟨some "ok"⟩]⟩], some 0⟩) =
      ⟨true, some "ok", none, 0⟩ ∧
    ("hi".length + "ok".length) / 4 = 1 := by
  exact ⟨rfl, rfl⟩

/-- C6 (amended): on every successful `call_gemini` response (2xx body
with a first candidate carrying at least one part), `tokens_used` equals
the reported `totalTokenCount` when that is present and non-zero, and is
otherwise estimated as `len(prompt) // 4 + len(content) // 4`; the
estimate is 0 when prompt and content are both shorter than 4
characters. -/
theorem call_gemini_token_accounting (prompt : String) (part : GeminiPart)
    (ps : List GeminiPart) (cs : List GeminiCandidate) (tok : Option Nat) :
    call_gemini prompt (.ok ⟨⟨part :: ps⟩ :: cs, tok⟩) =
      ⟨true, some (part.text.getD ""), none,
        if tok.getD 0 = 0 then
          prompt.length / 4 + (part.text.getD "").length / 4
        else
          tok.getD 0⟩ := rfl

/-- Counterexample for C7 as stated: a 2xx response whose first candidate
has a part without a `"text"` key produces `success: true` with empty
content (and estimated tokens), not a failure. -/
theorem call_gemini_empty_content_counterexample :
    call_gemini "test prompt" (.ok ⟨[⟨[⟨none⟩]⟩], none⟩) =
      ⟨true, some "", none, 2⟩ := rfl

/-- C7 (amended): a 2xx response with no candidates, or whose first
candidate has no content parts, is a failure with the respective error
message; but a first part with empty (or missing) generated text yields
`success: true` with empty content. -/
theorem call_gemini_empty_response_handling :
    (∀ (prompt : String) (tok : Option Nat),
      call_gemini prompt (.ok ⟨[], tok⟩) =
        ⟨false, none, some "No response generated by Gemini", 0⟩) ∧
    (∀ (prompt : String) (tok : Option Nat) (cs : List GeminiCandidate),
      call_gemini prompt (.ok ⟨⟨[]⟩ :: cs, tok⟩) =
        ⟨false, none, some "No content in Gemini response", 0⟩) ∧
    (∀ (prompt : String) (tok : Option Nat) (ps : List GeminiPart)
        (cs : List GeminiCandidate),
      call_gemini prompt (.ok ⟨⟨⟨some ""⟩ :: ps⟩ :: cs, tok⟩) =
        ⟨true, some "", none,
          if tok.getD 0 = 0 then prompt.length / 4 else tok.getD 0⟩) := by
  refine ⟨fun prompt tok => rfl, fun prompt tok cs => rfl,
    fun prompt tok ps cs => ?_⟩
  simp [call_gemini, call_gemini_ok]

/-- The attempted key ids of the fallback loop are exactly the ids of an
initial segment of the key list, in order. -/
theorem fallbackGo_ids_initial (call : RouterKey → AdapterResult) :
    ∀ (keys : List RouterKey) (fuel made : Nat),
      (fallbackGo call keys fuel made).2 =
        (keys.take (fallbackGo call keys fuel made).2.length).map
          (fun k => k.id) := by
  intro keys
  induction keys with
  | nil => intro fuel made; cases fuel <;> simp [fallbackGo]
  | cons k rest ih =>
    intro fuel made
    cases fuel with
    | zero => simp [fallbackGo]
    | succ f =>
      by_cases h : (call k).success = true
      · simp [fallbackGo, h]
      · simp only [fallbackGo, h, Bool.false_eq_true, if_false,
          List.length_cons, List.take_succ_cons, List.map_cons,
          List.cons.injEq, true_and]
        exact ih f (made + 1)

/-- When some attempted key succeeds, the fallback loop stops at the
first such key: it reports success with that key's id, content and token
count, and the attempt count equals the number of failed keys before it
plus one. -/
theorem fallbackGo_first_success (call : RouterKey → AdapterResult) :
    ∀ (keys : List RouterKey) (fuel made : Nat) (k : RouterKey),
      (keys.take fuel).find? (fun j => (call j).success) = some k →
      (fallbackGo call keys fuel made).1.success = true ∧
      (fallbackGo call keys fuel made).1.key_id = some k.id ∧
      (fallbackGo call keys fuel made).1.content = (call k).content ∧
      (fallbackGo call keys fuel made).1.tokens_used =
        (call k).tokens_used ∧
      (fallbackGo call keys fuel made).1.attempts =
        made +
          ((keys.take fuel).takeWhile (fun j => !(call j).success)).length
          + 1 ∧
      (fallbackGo call keys fuel made).2.length =
        ((keys.take fuel).takeWhile (fun j => !(call j).success)).length
          + 1 := by
  intro keys
  induction keys with
  | nil =>
    intro fuel made k hfind
    simp at hfind
  | cons k0 rest ih =>
    intro fuel made k hfind
    cases fuel with
    | zero => simp at hfind
    | succ f =>
      cases h : (call k0).success with
      | true =>
        simp only [List.take_succ_cons, List.find?_cons, h] at hfind
        simp only [Option.some.injEq] at hfind
        subst hfind
        simp [fallbackGo, h, List.takeWhile_cons]
      | false =>
        simp only [List.take_succ_cons, List.find?_cons, h] at hfind
        have hres := ih f (made + 1) k hfind
        simp only [fallbackGo, h, Bool.false_eq_true, if_false,
          List.take_succ_cons, List.takeWhile_cons, Bool.not_false,
          List.length_cons]
        refine ⟨hres.1, hres.2.1, hres.2.2.1, hres.2.2.2.1, ?_, ?_⟩
        · rw [hres.2.2.2.2.1]
          simp only [if_true, List.length_cons]
          omega
        · rw [hres.2.2.2.2.2]
          simp only [if_true, List.length_cons]

/-- When every attempted key fails, the fallback loop returns the
failure result with an attempt count of `min (number of keys) fuel`. -/
theorem fallbackGo_all_fail (call : RouterKey → AdapterResult) :
    ∀ (keys : List RouterKey) (fuel made : Nat),
      (∀ j ∈ keys.take fuel, (call j).success = false) →
      (fallbackGo call keys fuel made).1 =
        ⟨false, none, some "All API keys failed", 0, none,
          made + min keys.length fuel⟩ ∧
      (fallbackGo call keys fuel made).2.length =
        min keys.length fuel := by
  intro keys
  induction keys with
  | nil =>
    intro fuel made _
    cases fuel <;> simp [fallbackGo]
  | cons k0 rest ih =>
    intro fuel made hall
    cases fuel with
    | zero => simp [fallbackGo]
    | succ f =>
      have h0 : (call k0).success = false :=
        hall k0 (by simp)
      have hrest : ∀ j ∈ rest.take f, (call j).success = false := by
        intro j hj
        exact hall j (by simp [hj])
      have hres := ih f (made + 1) hrest
      simp only [fallbackGo, h0, Bool.false_eq_true, if_false,
        List.length_cons, Nat.succ_min_succ]
      constructor
      · rw [hres.1]
        congr 1
        omega
      · rw [hres.2]

/-- C1: for a non-empty priority-descending list of active keys,
`execute_with_fallback` attempts keys in list (hence descending
priority) order; as soon as one adapter call succeeds it returns
`success: true` with that key's id, having attempted exactly the failed
keys before it plus the succeeding one; and when every attempted adapter
call fails it returns `success: false` with an attempts count of
`min (number of keys) max_retries`. -/
theorem execute_with_fallback_spec (keys : List RouterKey)
    (call : RouterKey → AdapterResult) (max_retries : Nat)
    (hne : keys ≠ [])
    (hsorted : keys.Pairwise (fun a b => b.priority ≤ a.priority)) :
    ((execute_with_fallback keys call max_retries).2 =
      (keys.take (execute_with_fallback keys call max_retries).2.length).map
        (fun k => k.id)) ∧
    (keys.take
        (execute_with_fallback keys call max_retries).2.length).Pairwise
      (fun a b => b.priority ≤ a.priority) ∧
    (∀ k : RouterKey,
      (keys.take max_retries).find? (fun j => (call j).success) = some k →
      (execute_with_fallback keys call max_retries).1.success = true ∧
      (execute_with_fallback keys call max_retries).1.key_id = some k.id ∧
      (execute_with_fallback keys call max_retries).1.attempts =
        ((keys.take max_retries).takeWhile
          (fun j => !(call j).success)).length + 1 ∧
      (execute_with_fallback keys call max_retries).2.length =
        (execute_with_fallback keys call max_retries).1.attempts) ∧
    ((∀ j ∈ keys.take max_retries, (call j).success = false) →
      (execute_with_fallback keys call max_retries).1.success = false ∧
      (execute_with_fallback keys call max_retries).1.attempts =
        min keys.length max_retries) := by
  unfold execute_with_fallback
  refine ⟨fallbackGo_ids_initial call keys max_retries 0,
    List.Pairwise.sublist (List.take_sublist _ _) hsorted,
    fun k hfind => ?_, fun hall => ?_⟩
  · have h := fallbackGo_first_success call keys max_retries 0 k hfind
    refine ⟨h.1, h.2.1, ?_, ?_⟩
    · rw [h.2.2.2.2.1]
      omega
    · rw [h.2.2.2.2.2, h.2.2.2.2.1]
      omega
  · have h := fallbackGo_all_fail call keys max_retries 0 hall
    simp [h.1]

/-- Witness for C1: two active keys in descending priority order, the
first failing and the second succeeding, with `max_retries = 3`; the
router reports success on the second key after two attempts. -/
theorem execute_with_fallback_spec_witness :
    (execute_with_fallback [⟨"key-0", (2 : Int)⟩, ⟨"key-1", (1 : Int)⟩]
        (fun k => if k.id = "key-1" then
            ⟨true, some "Test response", none, 10⟩
          else
            ⟨false, none, some "API key quota exceeded", 0⟩) 3).1.success =
        true ∧
    (execute_with_fallback [⟨"key-0", (2 : Int)⟩, ⟨"key-1", (1 : Int)⟩]
        (fun k => if k.id = "key-1" then
            ⟨true, some "Test response", none, 10⟩
          else
            ⟨false, none, some "API key quota exceeded", 0⟩) 3).1.key_id =
        some "key-1" ∧
    (execute_with_fallback [⟨"key-0", (2 : Int)⟩, ⟨"key-1", (1 : Int)⟩]
        (fun k => if k.id = "key-1" then
            ⟨true, some "Test response", none, 10⟩
          else
            ⟨false, none, some "API key quota exceeded", 0⟩) 3).1.attempts =
        2 := by
  have h := execute_with_fallback_spec
    [⟨"key-0", (2 : Int)⟩, ⟨"key-1", (1 : Int)⟩]
    (fun k => if k.id = "key-1" then
        ⟨true, some "Test response", none, 10⟩
      else
        ⟨false, none, some "API key quota exceeded", 0⟩) 3
    (by decide) (by decide)
  have hk := h.2.2.1 ⟨"key-1", (1 : Int)⟩ (by decide)
  exact ⟨hk.1, hk.2.1, hk.2.2.1.trans (by decide)⟩

/-- Decoding inverts encoding on each base64 sextet. -/
theorem b64dec_enc : ∀ x : Nat, x < 64 → b64dec (b64enc x) = x := by decide

/-- No base64 alphabet character is the padding character `'='`. -/
theorem b64enc_ne_pad : ∀ x : Nat, x < 64 → b64enc x ≠ 61 := by decide

/-- Unfolding lemma: decoding a quartet ending in one padding char. -/
theorem b64decode_pad1 (c1 c2 c3 : Nat) (h3 : c3 ≠ 61) :
    b64decode [c1, c2, c3, 61] =
      [b64dec c1 * 4 + b64dec c2 / 16,
        b64dec c2 % 16 * 16 + b64dec c3 / 4] := by
  simp [b64decode, h3]

/-- Unfolding lemma: decoding an unpadded quartet. -/
theorem b64decode_cons (c1 c2 c3 c4 : Nat) (rest : List Nat)
    (h3 : c3 ≠ 61) (h4 : c4 ≠ 61) :
    b64decode (c1 :: c2 :: c3 :: c4 :: rest) =
      (b64dec c1 * 4 + b64dec c2 / 16) ::
        (b64dec c2 % 16 * 16 + b64dec c3 / 4) ::
        (b64dec c3 % 4 * 64 + b64dec c4) :: b64decode rest := by
  simp [b64decode, h3, h4]

/-- Base64 decoding inverts encoding on byte lists. -/
theorem b64_roundtrip :
    ∀ l : List Nat, (∀ b ∈ l, b < 256) → b64decode (b64encode l) = l := by
  intro l
  induction l using b64encode.induct with
  | case1 =>
    intro _
    rfl
  | case2 a =>
    intro hb
    have ha : a < 256 := hb a (by simp)
    have henc : b64decode (b64encode [a]) =
        [b64dec (b64enc (a / 4)) * 4 + b64dec (b64enc (a % 4 * 16)) / 16] :=
      rfl
    rw [henc, b64dec_enc _ (by omega), b64dec_enc _ (by omega)]
    have : a / 4 * 4 + a % 4 * 16 / 16 = a := by omega
    rw [this]
  | case3 a b =>
    intro hb
    have ha : a < 256 := hb a (by simp)
    have hbb : b < 256 := hb b (by simp)
    have henc : b64encode [a, b] =
        [b64enc (a / 4), b64enc (a % 4 * 16 + b / 16), b64enc (b % 16 * 4),
          61] := rfl
    rw [henc, b64decode_pad1 _ _ _ (b64enc_ne_pad _ (by omega))]
    rw [b64dec_enc _ (by omega), b64dec_enc _ (by omega),
      b64dec_enc _ (by omega)]
    have h1 : a / 4 * 4 + (a % 4 * 16 + b / 16) / 16 = a := by omega
    have h2 : (a % 4 * 16 + b / 16) % 16 * 16 + b % 16 * 4 / 4 = b := by
      omega
    rw [h1, h2]
  | case4 a b c rest ih =>
    intro hb
    have ha : a < 256 := hb a (by simp)
    have hbb : b < 256 := hb b (by simp)
    have hc : c < 256 := hb c (by simp)
    have henc : b64encode (a :: b :: c :: rest) =
        b64enc (a / 4) :: b64enc (a % 4 * 16 + b / 16) ::
          b64enc (b % 16 * 4 + c / 64) :: b64enc (c % 64) ::
          b64encode rest := rfl
    rw [henc, b64decode_cons _ _ _ _ _ (b64enc_ne_pad _ (by omega))
      (b64enc_ne_pad _ (by omega))]
    rw [b64dec_enc _ (by omega), b64dec_enc _ (by omega),
      b64dec_enc _ (by omega), b64dec_enc _ (by omega)]
    rw [ih (fun x hx => hb x (by simp [hx]))]
    have h1 : a / 4 * 4 + (a % 4 * 16 + b / 16) / 16 = a := by omega
    have h2 : (a % 4 * 16 + b / 16) % 16 * 16 +
        (b % 16 * 4 + c / 64) / 4 = b := by omega
    have h3 : (b % 16 * 4 + c / 64) % 4 * 64 + c % 64 = c := by omega
    rw [h1, h2, h3]

/-- Encoding a non-empty byte list yields a non-empty blob. -/
theorem b64encode_ne_nil (l : List Nat) (h : l ≠ []) : b64encode l ≠ [] := by
  match l with
  | [] => exact absurd rfl h
  | [a] => simp [b64encode]
  | [a, b] => simp [b64encode]
  | a :: b :: c :: rest => simp [b64encode]

/-- An AES block encryption always produces 16 bytes. -/
theorem aesEncryptBlock_length (key block : List Nat) :
    (aesEncryptBlock key block).length = 16 := by
  simp [aesEncryptBlock, addRoundKey]

/-- Every byte of an AES block encryption is below 256. -/
theorem aesEncryptBlock_bytes (key block : List Nat) :
    ∀ b ∈ aesEncryptBlock key block, b < 256 := by
  intro b hb
  simp only [aesEncryptBlock, addRoundKey, List.mem_map] at hb
  obtain ⟨i, _, hi⟩ := hb
  omega

/-- `natToBytes n` always produces `n` bytes. -/
theorem natToBytes_length (n x : Nat) : (natToBytes n x).length = n := by
  induction n generalizing x with
  | zero => rfl
  | succ m ih => simp [natToBytes, ih]

/-- Every entry of `natToBytes` is below 256. -/
theorem natToBytes_bytes (n x : Nat) : ∀ b ∈ natToBytes n x, b < 256 := by
  induction n generalizing x with
  | zero => simp [natToBytes]
  | succ m ih =>
    intro b hb
    simp only [natToBytes, List.mem_append, List.mem_singleton] at hb
    rcases hb with hb | hb
    · exact ih _ b hb
    · omega

/-- The concatenated keystream blocks have length `16 * n`. -/
theorem ksBlocks_length (key nonce : List Nat) :
    ∀ (n ctr : Nat), (ksBlocks key nonce ctr n).length = 16 * n := by
  intro n
  induction n with
  | zero => intro ctr; rfl
  | succ m ih =>
    intro ctr
    simp only [ksBlocks, List.length_append, aesEncryptBlock_length, ih]
    omega

/-- The keystream has exactly the requested length. -/
theorem keystream_length (key nonce : List Nat) (n : Nat) :
    (keystream key nonce n).length = n := by
  simp only [keystream, List.length_take, ksBlocks_length]
  have h := Nat.div_add_mod (n + 15) 16
  have h2 : (n + 15) % 16 < 16 := Nat.mod_lt _ (by omega)
  omega

/-- Every byte of the concatenated keystream blocks is below 256. -/
theorem ksBlocks_bytes (key nonce : List Nat) :
    ∀ (n ctr : Nat), ∀ b ∈ ksBlocks key nonce ctr n, b < 256 := by
  intro n
  induction n with
  | zero => intro ctr b hb; simp [ksBlocks] at hb
  | succ k ih =>
    intro ctr b hb
    simp only [ksBlocks, List.mem_append] at hb
    rcases hb with hb | hb
    · exact aesEncryptBlock_bytes _ _ b hb
    · exact ih (ctr + 1) b hb

/-- Every keystream byte is below 256. -/
theorem keystream_bytes (key nonce : List Nat) (n : Nat) :
    ∀ b ∈ keystream key nonce n, b < 256 := by
  intro b hb
  exact ksBlocks_bytes key nonce _ 2 b (List.take_subset _ _ hb)

/-- Helper: xoring two byte lists pointwise yields bytes. -/
theorem zipWith_xor_bytes :
    ∀ (l1 l2 : List Nat), (∀ b ∈ l1, b < 256) → (∀ b ∈ l2, b < 256) →
      ∀ b ∈ List.zipWith (fun a b => a ^^^ b) l1 l2, b < 256 := by
  intro l1
  induction l1 with
  | nil => intro l2 _ _ b hb; simp at hb
  | cons a t ih =>
    intro l2 h1 h2 b hb
    cases l2 with
    | nil => simp at hb
    | cons c u =>
      simp only [List.zipWith_cons_cons, List.mem_cons] at hb
      rcases hb with hb | hb
      · subst hb
        have ha : a < 256 := h1 a (by simp)
        have hc : c < 256 := h2 c (by simp)
        calc a ^^^ c < 2 ^ 8 :=
              Nat.xor_lt_two_pow (by omega) (by omega)
          _ = 256 := rfl
      · exact ih u (fun x hx => h1 x (by simp [hx]))
          (fun x hx => h2 x (by simp [hx])) b hb

/-- Helper: xoring with the same list twice is the identity. -/
theorem zipWith_xor_cancel :
    ∀ (l ks : List Nat), l.length ≤ ks.length →
      List.zipWith (fun a b => a ^^^ b)
        (List.zipWith (fun a b => a ^^^ b) l ks) ks = l := by
  intro l
  induction l with
  | nil => intro ks _; simp
  | cons a t ih =>
    intro ks hlen
    cases ks with
    | nil => simp at hlen
    | cons k u =>
      simp only [List.zipWith_cons_cons, List.cons.injEq]
      refine ⟨?_, ih u (by simpa using hlen)⟩
      rw [Nat.xor_assoc, Nat.xor_self, Nat.xor_zero]

/-- The CTR layer preserves length. -/
theorem ctrCrypt_length (key nonce data : List Nat) :
    (ctrCrypt key nonce data).length = data.length := by
  simp [ctrCrypt, List.length_zipWith, keystream_length]

/-- The CTR layer is an involution. -/
theorem ctrCrypt_ctrCrypt (key nonce pt : List Nat) :
    ctrCrypt key nonce (ctrCrypt key nonce pt) = pt := by
  unfold ctrCrypt
  rw [List.length_zipWith, keystream_length, Nat.min_self]
  exact zipWith_xor_cancel pt (keystream key nonce pt.length)
    (by rw [keystream_length])

/-- Every ciphertext byte of the CTR layer is below 256 when the data
bytes are. -/
theorem ctrCrypt_bytes (key nonce data : List Nat)
    (h : ∀ b ∈ data, b < 256) : ∀ b ∈ ctrCrypt key nonce data, b < 256 :=
  zipWith_xor_bytes data _ h (keystream_bytes key nonce data.length)

/-- The GCM tag is 16 bytes long. -/
theorem computeTag_length (key nonce ct : List Nat) :
    (computeTag key nonce ct).length = 16 := by
  simp [computeTag, List.length_zipWith, aesEncryptBlock_length,
    natToBytes_length]

/-- Every GCM tag byte is below 256. -/
theorem computeTag_bytes (key nonce ct : List Nat) :
    ∀ b ∈ computeTag key nonce ct, b < 256 :=
  zipWith_xor_bytes _ _ (aesEncryptBlock_bytes key _)
    (natToBytes_bytes 16 _)

/-- GCM decryption inverts GCM encryption. -/
theorem gcmDecrypt_gcmEncrypt (key nonce pt : List Nat) :
    gcmDecrypt key nonce (gcmEncrypt key nonce pt) = some pt := by
  have htag := computeTag_length key nonce (ctrCrypt key nonce pt)
  simp only [gcmEncrypt, gcmDecrypt]
  rw [List.length_append, htag]
  rw [if_neg (by omega)]
  have hsub : (ctrCrypt key nonce pt).length + 16 - 16 =
      (ctrCrypt key nonce pt).length := by omega
  rw [hsub, List.take_left, List.drop_left, if_pos rfl, ctrCrypt_ctrCrypt]

/-- Every byte of an encrypted blob (nonce, ciphertext and tag) is below
256 when the nonce and plaintext bytes are. -/
theorem gcmEncrypt_blob_bytes (key nonce pt : List Nat)
    (hbn : ∀ b ∈ nonce, b < 256) (hptb : ∀ b ∈ pt, b < 256) :
    ∀ b ∈ nonce ++ gcmEncrypt key nonce pt, b < 256 := by
  intro b hb
  rcases List.mem_append.mp hb with h | h
  · exact hbn b h
  · simp only [gcmEncrypt] at h
    rcases List.mem_append.mp h with h | h
    · exact ctrCrypt_bytes key nonce pt hptb b h
    · exact computeTag_bytes key nonce _ b h

/-- Decrypting a freshly encrypted blob recovers the plaintext. -/
theorem decrypt_encrypt (key nonce pt : List Nat)
    (hn : nonce.length = 12) (hbn : ∀ b ∈ nonce, b < 256)
    (hptb : ∀ b ∈ pt, b < 256) :
    decrypt_key key (b64encode (nonce ++ gcmEncrypt key nonce pt)) =
      .ok pt := by
  have hne' : nonce ++ gcmEncrypt key nonce pt ≠ [] := by
    intro hcon
    rw [List.append_eq_nil] at hcon
    have : nonce.length = 0 := by rw [hcon.1]; rfl
    omega
  simp only [decrypt_key]
  rw [if_neg (b64encode_ne_nil _ hne')]
  rw [b64_roundtrip _ (gcmEncrypt_blob_bytes key nonce pt hbn hptb)]
  rw [if_neg (by rw [List.length_append, hn]; omega)]
  have ht : (nonce ++ gcmEncrypt key nonce pt).take 12 = nonce := by
    rw [← hn]
    exact List.take_left _ _
  have hd : (nonce ++ gcmEncrypt key nonce pt).drop 12 =
      gcmEncrypt key nonce pt := by
    rw [← hn]
    exact List.drop_left _ _
  rw [ht, hd, gcmDecrypt_gcmEncrypt]

/-- C4: for every 32-byte key and non-empty plaintext (as utf-8 bytes),
encrypting under two distinct fresh 12-byte nonces (the model of
`os.urandom(12)` per call) produces two different ciphertext blobs, and
`decrypt_key` recovers the original plaintext from each.  Decryption of
a fixed ciphertext is a pure function in this embedding, so repeated
decryption is deterministic by construction. -/
theorem encrypt_decrypt_roundtrip (key nonce1 nonce2 pt : List Nat)
    (hkey : key.length = 32)
    (hn1 : nonce1.length = 12) (hn2 : nonce2.length = 12)
    (hb1 : ∀ b ∈ nonce1, b < 256) (hb2 : ∀ b ∈ nonce2, b < 256)
    (hpt : pt ≠ []) (hptb : ∀ b ∈ pt, b < 256)
    (hnd : nonce1 ≠ nonce2) :
    ∃ c1 c2 : List Nat,
      encrypt_key key nonce1 pt = .ok c1 ∧
      encrypt_key key nonce2 pt = .ok c2 ∧
      c1 ≠ c2 ∧
      decrypt_key key c1 = .ok pt ∧
      decrypt_key key c2 = .ok pt := by
  refine ⟨b64encode (nonce1 ++ gcmEncrypt key nonce1 pt),
    b64encode (nonce2 ++ gcmEncrypt key nonce2 pt),
    by simp [encrypt_key, hpt], by simp [encrypt_key, hpt], ?_,
    decrypt_encrypt key nonce1 pt hn1 hb1 hptb,
    decrypt_encrypt key nonce2 pt hn2 hb2 hptb⟩
  intro hcon
  have hdec := congrArg b64decode hcon
  rw [b64_roundtrip _ (gcmEncrypt_blob_bytes key nonce1 pt hb1 hptb),
    b64_roundtrip _ (gcmEncrypt_blob_bytes key nonce2 pt hb2 hptb)] at hdec
  have htake := congrArg (List.take 12) hdec
  rw [show (12 : Nat) = nonce1.length from hn1.symm] at htake
  rw [List.take_left] at htake
  rw [show nonce1.length = nonce2.length by rw [hn1, hn2]] at htake
  rw [List.take_left] at htake
  exact hnd htake

/-- Witness for C4 at a concrete key, two concrete distinct nonces and
the plaintext bytes of "hi". -/
theorem encrypt_decrypt_roundtrip_witness :
    ∃ c1 c2 : List Nat,
      encrypt_key (List.range 32) (List.replicate 12 0) [104, 105] =
        .ok c1 ∧
      encrypt_key (List.range 32) (1 :: List.replicate 11 0) [104, 105] =
        .ok c2 ∧
      c1 ≠ c2 ∧
      decrypt_key (List.range 32) c1 = .ok [104, 105] ∧
      decrypt_key (List.range 32) c2 = .ok [104, 105] :=
  encrypt_decrypt_roundtrip (List.range 32) (List.replicate 12 0)
    (1 :: List.replicate 11 0) [104, 105] (by decide) (by decide)
    (by decide) (by decide) (by decide) (by decide) (by decide) (by decide)

/-- Part of C5 provable outright: empty input is rejected with the
labelled error before any decoding. -/
theorem decrypt_key_empty (key : List Nat) :
    decrypt_key key [] = .error "Cannot decrypt empty ciphertext" := rfl

/-- Part of C5 provable outright: a blob whose base64 decoding has fewer
than 12 bytes is rejected with the labelled error. -/
theorem decrypt_key_short (key bytes : List Nat) (h : bytes ≠ [])
    (hlen : bytes.length < 12) (hb : ∀ b ∈ bytes, b < 256) :
    decrypt_key key (b64encode bytes) =
      .error "Failed to decrypt API key: Invalid ciphertext: too short" := by
  simp only [decrypt_key]
  rw [if_neg (b64encode_ne_nil _ h), b64_roundtrip _ hb, if_pos hlen]

/-- Part of C5 provable outright: flipping any single bit of the
16-byte authentication tag of a valid blob makes `decrypt_key` fail
with the labelled authentication error, for every key, nonce and
plaintext — the recomputed tag depends only on the (unchanged)
ciphertext. -/
theorem decrypt_key_tag_tamper (key nonce pt : List Nat) (i j : Nat)
    (hn : nonce.length = 12) (hbn : ∀ b ∈ nonce, b < 256)
    (hptb : ∀ b ∈ pt, b < 256) (hi : i < 16) (hj : j < 8) :
    decrypt_key key
        (b64encode (nonce ++ ctrCrypt key nonce pt ++
          (computeTag key nonce (ctrCrypt key nonce pt)).set i
            (((computeTag key nonce (ctrCrypt key nonce pt)).getD i 0) ^^^
              2 ^ j))) =
      .error ("Failed to decrypt API key: Authentication tag " ++
        "verification failed. The data may have been tampered with " ++
        "or the wrong key was used.") := by
  set ct := ctrCrypt key nonce pt with hct
  set tag := computeTag key nonce ct with htagdef
  set v := tag.getD i 0 ^^^ 2 ^ j with hv
  have htlen : tag.length = 16 := computeTag_length key nonce ct
  have hvne : v ≠ tag.getD i 0 := by
    intro hcon
    rw [hv] at hcon
    have hz : (2 : Nat) ^ j = 0 := by
      calc (2 : Nat) ^ j
          = tag.getD i 0 ^^^ (tag.getD i 0 ^^^ 2 ^ j) := by
            rw [← Nat.xor_assoc, Nat.xor_self, Nat.zero_xor]
        _ = tag.getD i 0 ^^^ tag.getD i 0 := by rw [hcon]
        _ = 0 := Nat.xor_self _
    exact absurd hz (by positivity)
  have hbt : ∀ b ∈ tag.set i v, b < 256 := by
    intro b hb
    rcases List.mem_or_eq_of_mem_set hb with hb | hb
    · exact computeTag_bytes key nonce ct b hb
    · subst hb
      have h1 : tag.getD i 0 < 256 := by
        rcases Nat.lt_or_ge i tag.length with h | h
        · rw [List.getD_eq_getElem _ _ h]
          exact computeTag_bytes key nonce ct _ (List.getElem_mem h)
        · rw [List.getD_eq_default _ _ h]
          omega
      have h2 : (2 : Nat) ^ j < 256 := by
        calc (2 : Nat) ^ j ≤ 2 ^ 7 := Nat.pow_le_pow_right (by omega) (by omega)
          _ < 256 := by omega
      calc v < 2 ^ 8 := Nat.xor_lt_two_pow (by omega) (by omega)
        _ = 256 := rfl
  have hbytes : ∀ b ∈ nonce ++ ct ++ tag.set i v, b < 256 := by
    intro b hb
    rcases List.mem_append.mp hb with hb | hb
    · rcases List.mem_append.mp hb with hb | hb
      · exact hbn b hb
      · exact ctrCrypt_bytes key nonce pt hptb b hb
    · exact hbt b hb
  have hne' : nonce ++ ct ++ tag.set i v ≠ [] := by
    intro hcon
    rw [List.append_eq_nil, List.append_eq_nil] at hcon
    have : nonce.length = 0 := by rw [hcon.1.1]; rfl
    omega
  simp only [decrypt_key]
  rw [if_neg (b64encode_ne_nil _ hne'), b64_roundtrip _ hbytes]
  rw [List.append_assoc]
  rw [if_neg (by rw [List.length_append, hn]; omega)]
  have ht : (nonce ++ (ct ++ tag.set i v)).take 12 = nonce := by
    rw [← hn]
    exact List.take_left _ _
  have hd : (nonce ++ (ct ++ tag.set i v)).drop 12 = ct ++ tag.set i v := by
    rw [← hn]
    exact List.drop_left _ _
  rw [ht, hd]
  have hslen : (tag.set i v).length = 16 := by
    rw [List.length_set, htlen]
  simp only [gcmDecrypt]
  rw [List.length_append, hslen]
  rw [if_neg (by omega)]
  have hsub : ct.length + 16 - 16 = ct.length := by omega
  rw [hsub, List.take_left, List.drop_left]
  have htagne : ¬ tag = tag.set i v := by
    intro hcon
    have hgd := congrArg (fun l => List.getD l i 0) hcon
    simp only at hgd
    have hset : (tag.set i v).getD i 0 = v := by
      rw [List.getD_eq_getElem _ _ (by rw [hslen]; omega)]
      exact List.getElem_set_self _
    rw [hset] at hgd
    exact hvne hgd.symm
  rw [if_neg htagne]

end VaidyaAI
